import Mathlib

/-!
# kube-plex: a verification development of `main.go`

Go strings are modelled as lists of characters (`Str`; the texts the program
searches for are ASCII), Go slices as lists, a Go runtime panic as the `error`
side of `Except`.  The package-level
variables read with `os.Getenv` are passed explicitly (`Config`, or the single
address `pmsInternalAddress` where only that one is used).
-/

namespace KubePlex

/-- A Go string. -/
abbrev Str := List Char

/-- The Go runtime panics the program can raise. -/
inductive Panic where
  | indexOutOfRange (index len : Nat)
  deriving DecidableEq, Repr

deriving instance DecidableEq for Except

/-! ## Library functions used by the program -/

/-- Index of the first occurrence of `old` in `s`, as `strings.Index`. -/
def Index (s old : Str) : Option Nat :=
  if old.isPrefixOf s then some 0
  else match s with
    | [] => none
    | _ :: cs => (Index cs old).map (· + 1)

/-- The call `strings.Replace(s, old, new, 1)` for a non-empty `old`: the
leftmost occurrence of `old` is replaced, the rest of `s` is kept. -/
def Replace1 (s old new : Str) : Str :=
  if old == new then s
  else match Index s old with
    | none => s
    | some j => s.take j ++ new ++ s.drop (j + old.length)

/-- The call `strings.SplitN(v, "=", 2)`: the text before the first `=` and,
when there is one, the text after it. -/
def SplitN2 (v : Str) : List Str :=
  match Index v ['='] with
  | none => [v]
  | some m => [v.take m, v.drop (m + 1)]

/-! ## rewriteArgs -/

def loopback : Str := "http://127.0.0.1:32400".toList

def urlFlags : List Str :=
  ["-progressurl".toList, "-manifest_name".toList, "-segment_list".toList]

def logLevelFlags : List Str := ["-loglevel".toList, "-loglevel_plex".toList]

def recognizedFlags : List Str := urlFlags ++ logLevelFlags

/-- The iterations `i, i+1, ..., i+k-1` of the loop of `rewriteArgs` on the
slice `s`: the entry `v` is read when its iteration starts, and `in[i+1]` is
an index expression that panics when `i+1` is not below the length. -/
def rewriteArgsLoop (pmsInternalAddress : Str) : Nat → Nat → List Str → Except Panic (List Str)
  | 0, _, s => .ok s
  | k + 1, i, s =>
    match s[i]? with
    | none => .ok s
    | some v =>
      if v ∈ urlFlags then
        match s[i + 1]? with
        | none => .error (.indexOutOfRange (i + 1) s.length)
        | some w =>
          rewriteArgsLoop pmsInternalAddress k (i + 1)
            (s.set (i + 1) (Replace1 w loopback pmsInternalAddress))
      else if v ∈ logLevelFlags then
        if i + 1 < s.length then
          rewriteArgsLoop pmsInternalAddress k (i + 1) (s.set (i + 1) "debug".toList)
        else .error (.indexOutOfRange (i + 1) s.length)
      else rewriteArgsLoop pmsInternalAddress k (i + 1) s

/-- The function `rewriteArgs`: the slice after the in-place rewrite, or the panic
that stopped it. -/
def rewriteArgs (pmsInternalAddress : Str) (args : List Str) : Except Panic (List Str) :=
  rewriteArgsLoop pmsInternalAddress args.length 0 args

/-! ## Go index expressions -/

/-- The index expression `a[i]` on a slice: the element, or the runtime panic. -/
def index {α : Type} (a : List α) (i : Nat) : Except Panic α :=
  match a[i]? with
  | some x => .ok x
  | none => .error (.indexOutOfRange i a.length)

/-! ## rewriteEnv -/

/-- The iterations `i, ..., i+k-1` of the loop of `removeValFromEnvSlice`, and
the `return s` after it. -/
def removeValFromEnvSliceLoop (r : Str) (s : List Str) : Nat → Nat → Except Panic (List Str)
  | 0, _ => .ok s
  | k + 1, i =>
    match s[i]? with
    | none => .ok s
    | some v =>
      match index (SplitN2 v) 0 with
      | .error p => .error p
      | .ok name =>
        if name = r then .ok (s.take i ++ s.drop (i + 1))
        else removeValFromEnvSliceLoop r s k (i + 1)

def removeValFromEnvSlice (s : List Str) (r : Str) : Except Panic (List Str) :=
  removeValFromEnvSliceLoop r s s.length 0

/-- The function `rewriteEnv`: environment variables to be passed to the transcoder. -/
def rewriteEnv (env : List Str) : Except Panic (List Str) :=
  removeValFromEnvSlice env "PLEX_CLAIM".toList

/-! ## The pod description (the fields of `corev1.Pod` the program sets or reads) -/

structure SecretKeySelector where
  Name : Str
  Key : Str
  deriving DecidableEq, Repr

structure EnvVarSource where
  SecretKeyRef : Option SecretKeySelector
  deriving DecidableEq, Repr

structure EnvVar where
  Name : Str
  Value : Str := []
  ValueFrom : Option EnvVarSource := none
  deriving DecidableEq, Repr

structure VolumeMount where
  Name : Str
  MountPath : Str
  ReadOnly : Bool := false
  deriving DecidableEq, Repr

structure PersistentVolumeClaimVolumeSource where
  ClaimName : Str
  deriving DecidableEq, Repr

structure VolumeSource where
  PersistentVolumeClaim : Option PersistentVolumeClaimVolumeSource
  deriving DecidableEq, Repr

structure Volume where
  Name : Str
  VolumeSource : VolumeSource
  deriving DecidableEq, Repr

structure Container where
  Name : Str
  Command : List Str
  Image : Str
  Env : List EnvVar
  WorkingDir : Str
  VolumeMounts : List VolumeMount
  deriving DecidableEq, Repr

structure PodSpec where
  NodeSelector : List (Str × Str)
  RestartPolicy : Str
  Containers : List Container
  Volumes : List Volume
  deriving DecidableEq, Repr

/-- A pod phase is a Go string; the five named constants of `corev1`. -/
abbrev PodPhase := Str

def PodPending : PodPhase := "Pending".toList
def PodRunning : PodPhase := "Running".toList
def PodSucceeded : PodPhase := "Succeeded".toList
def PodFailed : PodPhase := "Failed".toList
def PodUnknown : PodPhase := "Unknown".toList

structure Pod where
  Name : Str := []
  GenerateName : Str := []
  Namespace : Str := []
  Spec : PodSpec
  Phase : PodPhase := []
  deriving DecidableEq, Repr

/-- The package-level variables of `main.go`, each read from the process
environment when the program starts. -/
structure Config where
  dataPVC : Str
  configPVC : Str
  transcodePVC : Str
  namespace_ : Str
  pmsImage : Str
  pmsInternalAddress : Str
  plexClaimSecretName : Str
  plexClaimSecretKey : Str
  deriving DecidableEq, Repr

/-- The function `toCoreV1EnvVar`: `out[i]` is built from `in[i]`, in order; the index
expression `splitvar[1]` panics on an entry without `=`. -/
def toCoreV1EnvVar : List Str → Except Panic (List EnvVar)
  | [] => .ok []
  | v :: rest =>
    match index (SplitN2 v) 0, index (SplitN2 v) 1 with
    | .error p, _ => .error p
    | .ok _, .error p => .error p
    | .ok name, .ok value =>
      match toCoreV1EnvVar rest with
      | .error p => .error p
      | .ok out => .ok ({ Name := name, Value := value } :: out)

def addFromSecretsToCoreV1EnvVar (cfg : Config) (vars : List EnvVar) : List EnvVar :=
  let secrets : List EnvVar :=
    [{ Name := "PLEX_CLAIM".toList,
       ValueFrom := some
         { SecretKeyRef :=
             some { Name := cfg.plexClaimSecretName, Key := cfg.plexClaimSecretKey } } }]
  vars ++ secrets

def generatePod (cfg : Config) (cwd : Str) (env : List Str) (args : List Str) :
    Except Panic Pod :=
  match toCoreV1EnvVar env with
  | .error p => .error p
  | .ok envVars0 =>
    let envVars := addFromSecretsToCoreV1EnvVar cfg envVars0
    .ok
      { GenerateName := "pms-elastic-transcoder-".toList,
        Spec :=
          { NodeSelector := [("beta.kubernetes.io/arch".toList, "amd64".toList)],
            RestartPolicy := "Never".toList,
            Containers :=
              [{ Name := "plex".toList,
                 Command := args,
                 Image := cfg.pmsImage,
                 Env := envVars,
                 WorkingDir := cwd,
                 VolumeMounts :=
                   [{ Name := "data".toList, MountPath := "/data".toList, ReadOnly := true },
                    { Name := "config".toList, MountPath := "/config".toList, ReadOnly := true },
                    { Name := "transcode".toList, MountPath := "/transcode".toList }] }],
            Volumes :=
              [{ Name := "data".toList,
                 VolumeSource := { PersistentVolumeClaim := some { ClaimName := cfg.dataPVC } } },
               { Name := "config".toList,
                 VolumeSource := { PersistentVolumeClaim := some { ClaimName := cfg.configPVC } } },
               { Name := "transcode".toList,
                 VolumeSource :=
                   { PersistentVolumeClaim := some { ClaimName := cfg.transcodePVC } } }] } }

/-! ## waitForPodCompletion -/

/-- A Go `error` value: one handed back by a library call, or one built by
`fmt.Errorf` from a format and its argument. -/
inductive GoError where
  | external (what : Str)
  | errorf (format : String) (arg : Str)
  deriving DecidableEq, Repr

/-- The answers of the cluster to the `Get` calls of the poll loop: the call
number, the namespace and the name asked for give the pod or the error. -/
abbrev Getter := Nat → Str → Str → Except GoError Pod

/-- The loop of `waitForPodCompletion` from its `n`-th fetch on, run for at most
`fuel` iterations: `none` when the loop is still running after them, otherwise
the returned error (or nil) and the number of fetches made.  The log line of
the Unknown case and the one-second sleep change neither. -/
def waitForPodCompletionLoop (get : Getter) (pod : Pod) :
    Nat → Nat → Option (Option GoError × Nat)
  | 0, _ => none
  | fuel + 1, n =>
    match get n pod.Namespace pod.Name with
    | .error err => some (some err, n + 1)
    | .ok p =>
      if p.Phase = PodPending then waitForPodCompletionLoop get pod fuel (n + 1)
      else if p.Phase = PodRunning then waitForPodCompletionLoop get pod fuel (n + 1)
      else if p.Phase = PodUnknown then waitForPodCompletionLoop get pod fuel (n + 1)
      else if p.Phase = PodFailed then some (some (.errorf "pod %q failed" p.Name), n + 1)
      else if p.Phase = PodSucceeded then some (none, n + 1)
      else waitForPodCompletionLoop get pod fuel (n + 1)

def waitForPodCompletion (get : Getter) (pod : Pod) (fuel : Nat) :
    Option (Option GoError × Nat) :=
  waitForPodCompletionLoop get pod fuel 0

/-! ## main -/

/-- What the outside gives to one run of `main`. -/
structure World where
  Getwd : Except GoError Str
  BuildConfigFromFlags : Option GoError
  NewForConfig : Option GoError
  Create : Str → Pod → Except GoError Pod
  Get : Getter
  Delete : Str → Str → Option GoError
  /-- The stop channel is the case the `select` takes. -/
  stopFirst : Bool

/-- The calls and log lines of `main` that the claims speak of. -/
inductive Event where
  | create (ns : Str) (pod : Pod)
  | selectWaitFn (err : Option GoError)
  | selectStopCh
  | printf (format : String) (err : Option GoError)
  | delete (ns name : Str)
  | fatalf (format : String) (err : GoError)
  deriving DecidableEq, Repr

/-- One finished run: what happened, and the exit status of the process
(0 when `main` returns, 1 after `log.Fatalf`, 2 after a runtime panic). -/
structure Run where
  trace : List Event
  exitStatus : Nat
  deriving DecidableEq, Repr

/-- Lines 41 to 67 of `main`: everything up to and including the create call.
The result is the created pod with the trace so far, or the run that ended. -/
def mainSubmit (cfg : Config) (w : World) (environ args : List Str) :
    Except Run (Pod × List Event) :=
  match rewriteEnv environ with
  | .error _ => .error ⟨[], 2⟩
  | .ok env =>
    match rewriteArgs cfg.pmsInternalAddress args with
    | .error _ => .error ⟨[], 2⟩
    | .ok args1 =>
      match w.Getwd with
      | .error e => .error ⟨[.fatalf "Error getting working directory: %s" e], 1⟩
      | .ok cwd =>
        match generatePod cfg cwd env args1 with
        | .error _ => .error ⟨[], 2⟩
        | .ok pod =>
          match w.BuildConfigFromFlags with
          | some e => .error ⟨[.fatalf "Error building kubeconfig: %s" e], 1⟩
          | none =>
            match w.NewForConfig with
            | some e => .error ⟨[.fatalf "Error building kubernetes clientset: %s" e], 1⟩
            | none =>
              match w.Create cfg.namespace_ pod with
              | .error e =>
                .error ⟨[.create cfg.namespace_ pod, .fatalf "Error creating pod: %s" e], 1⟩
              | .ok pod1 => .ok (pod1, [.create cfg.namespace_ pod])

/-- Lines 78 to 85 of `main`: the `select`, with the log line of the case taken;
`none` when neither channel is ready within `fuel` fetches. -/
def mainSelect (w : World) (pod1 : Pod) (fuel : Nat) : Option (List Event) :=
  if w.stopFirst then some [.selectStopCh, .printf "Exit requested." none]
  else
    match waitForPodCompletion w.Get pod1 fuel with
    | none => none
    | some (none, _) => some [.selectWaitFn none]
    | some (some err, _) =>
      some [.selectWaitFn (some err), .printf "Error waiting for pod to complete: %s" (some err)]

/-- Lines 87 to 93 of `main`: the cleanup. -/
def mainCleanup (cfg : Config) (w : World) (pod1 : Pod) : Run :=
  let tr : List Event := [.printf "Cleaning up pod..." none, .delete cfg.namespace_ pod1.Name]
  match w.Delete cfg.namespace_ pod1.Name with
  | some e => ⟨tr ++ [.fatalf "Error cleaning up pod: %s" e], 1⟩
  | none => ⟨tr, 0⟩

/-- The function `main`; `none` when it is still blocked in the `select` after
`fuel` fetches of the poll loop. -/
def main (cfg : Config) (w : World) (environ args : List Str) (fuel : Nat) : Option Run :=
  match mainSubmit cfg w environ args with
  | .error r => some r
  | .ok (pod1, tr) =>
    match mainSelect w pod1 fuel with
    | none => none
    | some sel =>
      let c := mainCleanup cfg w pod1
      some ⟨tr ++ sel ++ c.trace, c.exitStatus⟩

/-! ## Proof-side descriptions of the loops -/

/-- What one iteration of `rewriteArgs` writes at `in[i+1]` when the entry it
reads at `in[i]` is `v` and the entry at `in[i+1]` is `w`. -/
def rewriteValue (pmsInternalAddress v w : Str) : Str :=
  if v ∈ urlFlags then Replace1 w loopback pmsInternalAddress
  else if v ∈ logLevelFlags then "debug".toList
  else w

/-- The entries after an entry `v` once the scan has passed over them. -/
def scanArgs (pmsInternalAddress : Str) : Str → List Str → List Str
  | _, [] => []
  | v, w :: ws =>
    rewriteValue pmsInternalAddress v w ::
      scanArgs pmsInternalAddress (rewriteValue pmsInternalAddress v w) ws

/-- The last entry of `v :: ws`. -/
def lastFrom (v : Str) : List Str → Str
  | [] => v
  | w :: ws => lastFrom w ws

/-- The list `s` without its first entry whose name (the text before the first
`=`) is `r`. -/
def dropFirstNamed (r : Str) : List Str → List Str
  | [] => []
  | v :: vs => if v.takeWhile (· != '=') = r then vs else v :: dropFirstNamed r vs

/-- The delete calls of a trace. -/
def deleteCalls (tr : List Event) : List Event :=
  tr.filter fun e => match e with
    | .delete _ _ => true
    | _ => false

/-! ## Concrete inputs used by the examples -/

def exampleAddress : Str := "http://pms:32400".toList

def exampleUrlArgs : List Str :=
  ["Plex Transcoder".toList, "-progressurl".toList,
   "http://127.0.0.1:32400/video?back=http://127.0.0.1:32400".toList]

def exampleLogArgs : List Str :=
  ["Plex Transcoder".toList, "-loglevel".toList, "info".toList, "-i".toList, "in.mkv".toList]

def exampleConfig : Config :=
  { dataPVC := "plex-data".toList,
    configPVC := "plex-config".toList,
    transcodePVC := "plex-transcode".toList,
    namespace_ := "plex".toList,
    pmsImage := "plexinc/pms-docker".toList,
    pmsInternalAddress := exampleAddress,
    plexClaimSecretName := "plex-claim".toList,
    plexClaimSecretKey := "token".toList }

def exampleEnv : List Str := ["HOME=/config".toList, "FFMPEG_OPTS=a=b".toList]

def exampleClaimEnv : List Str :=
  ["HOME=/config".toList, "PLEX_CLAIM=claim-a".toList, "FFMPEG_OPTS=a=b".toList]

def examplePodName : Str := "pms-elastic-transcoder-x7k2p".toList

/-- A cluster that reports the pod as Pending twice and as Failed from then on. -/
def exampleGet : Getter := fun n ns name =>
  .ok { Name := name, Namespace := ns,
        Spec := { NodeSelector := [], RestartPolicy := [], Containers := [], Volumes := [] },
        Phase := if n < 2 then PodPending else PodFailed }

/-- A run in which every call succeeds and no stop signal arrives. -/
def exampleWorld : World :=
  { Getwd := .ok "/transcode".toList,
    BuildConfigFromFlags := none,
    NewForConfig := none,
    Create := fun ns pod => .ok { pod with Name := examplePodName, Namespace := ns },
    Get := exampleGet,
    Delete := fun _ _ => none,
    stopFirst := false }

def examplePod : Pod :=
  { Name := examplePodName, Namespace := "plex".toList,
    Spec := { NodeSelector := [], RestartPolicy := [], Containers := [], Volumes := [] } }

/-! ## rewriteArgs: the loop and the scan -/

theorem scanArgs_length (A : Str) : ∀ (ws : List Str) (v : Str),
    (scanArgs A v ws).length = ws.length
  | [], _ => rfl
  | w :: ws, v => by simp [scanArgs, scanArgs_length A ws]

theorem rewriteArgsLoop_eq (A : Str) : ∀ (rest pre : List Str) (v : Str),
    rewriteArgsLoop A (rest.length + 1) pre.length (pre ++ v :: rest) =
      if lastFrom v (scanArgs A v rest) ∈ recognizedFlags then
        .error (.indexOutOfRange (pre.length + rest.length + 1) (pre.length + rest.length + 1))
      else .ok (pre ++ v :: scanArgs A v rest)
  | [], pre, v => by
    simp only [List.length_nil, Nat.zero_add, rewriteArgsLoop, scanArgs, lastFrom]
    have h0 : (pre ++ [v])[pre.length]? = some v := by simp
    have h1 : (pre ++ [v])[pre.length + 1]? = none := by simp
    rw [h0]
    simp only [h1, List.length_append, List.length_singleton, Nat.add_zero, lt_irrefl,
      if_false, recognizedFlags, List.mem_append]
    by_cases hu : v ∈ urlFlags
    · simp [hu]
    · by_cases hl : v ∈ logLevelFlags
      · simp [hu, hl]
      · simp [hu, hl]
  | w :: rest, pre, v => by
    have ih := rewriteArgsLoop_eq A rest (pre ++ [v])
    simp only [List.length_append, List.length_singleton, List.append_assoc,
      List.singleton_append] at ih
    have h0 : (pre ++ v :: w :: rest)[pre.length]? = some v := by
      rw [List.getElem?_append_right (le_refl _)]
      simp
    have h1 : (pre ++ v :: w :: rest)[pre.length + 1]? = some w := by
      rw [List.getElem?_append_right (by omega)]
      simp
    have hset : ∀ x, (pre ++ v :: w :: rest).set (pre.length + 1) x = pre ++ v :: x :: rest := by
      intro x
      rw [List.set_append_right _ _ (by omega)]
      simp
    have hlen : pre.length + 1 < (pre ++ v :: w :: rest).length := by simp
    have hlast : lastFrom v (scanArgs A v (w :: rest))
        = lastFrom (rewriteValue A v w) (scanArgs A (rewriteValue A v w) rest) := by
      rw [scanArgs]
      rfl
    rw [hlast]
    simp only [List.length_cons]
    rw [rewriteArgsLoop, h0]
    simp only [h1, hset, hlen, if_true]
    have harith : pre.length + (rest.length + 1) + 1 = pre.length + 1 + rest.length + 1 := by
      omega
    by_cases hu : v ∈ urlFlags
    · have hv : rewriteValue A v w = Replace1 w loopback A := by simp [rewriteValue, hu]
      simp only [hu, if_true]
      rw [ih, scanArgs, hv, harith]
    · by_cases hl : v ∈ logLevelFlags
      · have hv : rewriteValue A v w = "debug".toList := by simp [rewriteValue, hu, hl]
        simp only [hu, hl, if_true, if_false]
        rw [ih, scanArgs, hv, harith]
      · have hv : rewriteValue A v w = w := by simp [rewriteValue, hu, hl]
        simp only [hu, hl, if_false]
        rw [ih, scanArgs, hv, harith]

/-- The function `rewriteArgs` is the scan, and it panics exactly when the last entry
is a recognized flag at the moment the scan reads it. -/
theorem rewriteArgs_cons (A v : Str) (rest : List Str) :
    rewriteArgs A (v :: rest) =
      if lastFrom v (scanArgs A v rest) ∈ recognizedFlags then
        .error (.indexOutOfRange (rest.length + 1) (rest.length + 1))
      else .ok (v :: scanArgs A v rest) := by
  have h := rewriteArgsLoop_eq A rest [] v
  simpa [rewriteArgs] using h

theorem rewriteArgs_nil (A : Str) : rewriteArgs A [] = .ok [] := rfl

theorem scanArgs_getElem (A : Str) : ∀ (rest : List Str) (v : Str) (j : Nat) (w : Str),
    rest[j]? = some w →
      ∃ p, (v :: scanArgs A v rest)[j]? = some p ∧
        (scanArgs A v rest)[j]? = some (rewriteValue A p w)
  | [], _, _, _, h => by simp at h
  | w0 :: rest, v, 0, w, h => by
    simp only [List.getElem?_cons_zero, Option.some.injEq] at h
    subst h
    exact ⟨v, by simp, by simp [scanArgs]⟩
  | w0 :: rest, v, j + 1, w, h => by
    simp only [List.getElem?_cons_succ] at h
    obtain ⟨p, hp, hq⟩ := scanArgs_getElem A rest (rewriteValue A v w0) j w h
    exact ⟨p, by simpa [scanArgs] using hp, by simpa [scanArgs] using hq⟩

/-- The shape of what `rewriteArgs` returns: same length, same first entry, and
every later entry is what the iteration before it wrote. -/
theorem rewriteArgs_ok_shape (A : Str) (args out : List Str)
    (h : rewriteArgs A args = .ok out) :
    out.length = args.length ∧ out[0]? = args[0]? ∧
      ∀ (j : Nat) (w : Str), args[j + 1]? = some w →
        ∃ p, out[j]? = some p ∧ out[j + 1]? = some (rewriteValue A p w) := by
  cases args with
  | nil =>
    rw [rewriteArgs_nil] at h
    cases h
    simp
  | cons v rest =>
    rw [rewriteArgs_cons] at h
    split at h
    · cases h
    · cases h
      refine ⟨by simp [scanArgs_length], by simp, ?_⟩
      intro j w hw
      simp only [List.getElem?_cons_succ] at hw ⊢
      exact scanArgs_getElem A rest v j w hw

theorem index_loopback_flag (f : Str) (hf : f ∈ recognizedFlags) : Index f loopback = none := by
  simp only [recognizedFlags, urlFlags, logLevelFlags, List.mem_append, List.mem_cons,
    List.mem_singleton, List.not_mem_nil, or_false] at hf
  rcases hf with (h | h | h) | (h | h) <;> subst h <;> decide

theorem Replace1_flag (A f : Str) (hf : f ∈ recognizedFlags) : Replace1 f loopback A = f := by
  unfold Replace1
  rw [index_loopback_flag f hf]
  simp

theorem Replace1_loopback_append (A x : Str) : Replace1 (loopback ++ x) loopback A = A ++ x := by
  unfold Replace1
  by_cases h : loopback = A
  · simp [h]
  · have hi : Index (loopback ++ x) loopback = some 0 := by
      unfold Index
      have : loopback.isPrefixOf (loopback ++ x) = true := by
        rw [List.isPrefixOf_iff_prefix]
        exact List.prefix_append _ _
      simp [this]
    simp [h, hi]

theorem Replace1_eq_or_infix (A s : Str) :
    Replace1 s loopback A = s ∨ A <:+: Replace1 s loopback A := by
  unfold Replace1
  split
  · exact Or.inl rfl
  · split
    · exact Or.inl rfl
    · exact Or.inr ⟨_, _, rfl⟩

theorem debug_not_flag : "debug".toList ∉ recognizedFlags := by decide

theorem logLevel_not_url (f : Str) (hf : f ∈ logLevelFlags) : f ∉ urlFlags := by
  simp only [logLevelFlags, List.mem_cons, List.mem_singleton, List.not_mem_nil, or_false] at hf
  rcases hf with h | h <;> subst h <;> decide

theorem mem_recognized (f : Str) : f ∈ recognizedFlags ↔ f ∈ urlFlags ∨ f ∈ logLevelFlags := by
  simp [recognizedFlags]

/-- After an entry that is not a recognized flag the next entry is left alone. -/
theorem rewriteValue_not_flag (A v w : Str) (hv : v ∉ recognizedFlags) :
    rewriteValue A v w = w := by
  rw [mem_recognized] at hv
  push_neg at hv
  simp [rewriteValue, hv.1, hv.2]

/-- An address that occurs in no recognized flag never turns an entry into one. -/
theorem rewriteValue_keeps_not_flag (A v w : Str)
    (hA : ∀ f ∈ recognizedFlags, ¬ A <:+: f) (hw : w ∉ recognizedFlags) :
    rewriteValue A v w ∉ recognizedFlags := by
  unfold rewriteValue
  split
  · rcases Replace1_eq_or_infix A w with h | h
    · rw [h]; exact hw
    · intro hmem
      exact hA _ hmem h
  · split
    · exact debug_not_flag
    · exact hw

theorem lastFrom_scanArgs_not_flag (A : Str) (hA : ∀ f ∈ recognizedFlags, ¬ A <:+: f) :
    ∀ (ws : List Str) (v v1 : Str), lastFrom v ws ∉ recognizedFlags →
      (ws = [] → v1 ∉ recognizedFlags) → lastFrom v1 (scanArgs A v1 ws) ∉ recognizedFlags
  | [], _, v1, _, h1 => by simpa [scanArgs, lastFrom] using h1 rfl
  | w :: ws, v, v1, h, _ => by
    simp only [scanArgs, lastFrom] at h ⊢
    apply lastFrom_scanArgs_not_flag A hA ws w _ h
    intro hws
    subst hws
    exact rewriteValue_keeps_not_flag A v1 w hA (by simpa [lastFrom] using h)

/-- With such an address an entry that is no flag in the input is no flag in the output. -/
theorem rewriteArgs_keeps_not_flag (A : Str) (hA : ∀ f ∈ recognizedFlags, ¬ A <:+: f)
    (args out : List Str) (h : rewriteArgs A args = .ok out) (j : Nat) (p q : Str)
    (hp : args[j]? = some p) (hpf : p ∉ recognizedFlags) (hq : out[j]? = some q) :
    q ∉ recognizedFlags := by
  obtain ⟨_, h0, hstep⟩ := rewriteArgs_ok_shape A args out h
  cases j with
  | zero =>
    rw [h0, hp] at hq
    cases hq
    exact hpf
  | succ j =>
    obtain ⟨r, _, hr⟩ := hstep j p hp
    rw [hr] at hq
    cases hq
    exact rewriteValue_keeps_not_flag A r p hA hpf

/-- A list without recognized flags is scanned without a change. -/
theorem scanArgs_no_flag (A : Str) : ∀ (ws : List Str) (v : Str),
    v ∉ recognizedFlags → (∀ w ∈ ws, w ∉ recognizedFlags) →
      scanArgs A v ws = ws ∧ lastFrom v ws ∉ recognizedFlags
  | [], _, hv, _ => ⟨rfl, hv⟩
  | w :: ws, v, hv, h => by
    have hw : w ∉ recognizedFlags := h w (List.mem_cons_self _ _)
    have ih := scanArgs_no_flag A ws w hw (fun x hx => h x (List.mem_cons_of_mem _ hx))
    simp only [scanArgs, lastFrom, rewriteValue_not_flag A v w hv]
    exact ⟨by rw [ih.1], ih.2⟩

theorem rewriteArgs_no_flag (A : Str) (args : List Str)
    (h : ∀ v ∈ args, v ∉ recognizedFlags) : rewriteArgs A args = .ok args := by
  cases args with
  | nil => rfl
  | cons v rest =>
    have hs := scanArgs_no_flag A rest v (h v (List.mem_cons_self _ _))
      (fun x hx => h x (List.mem_cons_of_mem _ hx))
    rw [rewriteArgs_cons, hs.1, if_neg hs.2]

/-- With an address that occurs in no recognized flag, what `rewriteArgs` returned is
accepted by `rewriteArgs` again. -/
theorem rewriteArgs_again_ok (A : Str) (hA : ∀ f ∈ recognizedFlags, ¬ A <:+: f)
    (args out : List Str) (h : rewriteArgs A args = .ok out) :
    ∃ out2, rewriteArgs A out = .ok out2 := by
  cases args with
  | nil =>
    rw [rewriteArgs_nil] at h
    cases h
    exact ⟨[], rfl⟩
  | cons v rest =>
    rw [rewriteArgs_cons] at h
    split at h
    · cases h
    · rename_i hlast
      cases h
      have h2 := lastFrom_scanArgs_not_flag A hA (scanArgs A v rest) v v hlast (by
        intro hnil
        rw [hnil] at hlast
        simpa [lastFrom] using hlast)
      exact ⟨_, by rw [rewriteArgs_cons, if_neg h2]⟩

theorem rewriteValue_flag_of_not_logLevel (A r f : Str) (hf : f ∈ recognizedFlags)
    (hr : r ∉ logLevelFlags) : rewriteValue A r f = f := by
  unfold rewriteValue
  split
  · exact Replace1_flag A f hf
  · simp [hr]

/-- The entry at `i` is still the input flag `f` when the scan reads it, provided no
log-level flag stands before it in the output. -/
theorem rewriteArgs_flag_in_place (A f : Str) (args out : List Str) (i : Nat)
    (hok : rewriteArgs A args = .ok out) (hf : f ∈ recognizedFlags)
    (hi : args[i]? = some f)
    (hprev : i = 0 ∨ ∀ p, out[i - 1]? = some p → p ∉ logLevelFlags) :
    out[i]? = some f := by
  obtain ⟨_, h0, hstep⟩ := rewriteArgs_ok_shape A args out hok
  cases i with
  | zero => rw [h0, hi]
  | succ i =>
    obtain ⟨r, hr, hout⟩ := hstep i f hi
    rcases hprev with h | h
    · omega
    · rw [hout, rewriteValue_flag_of_not_logLevel A r f hf (h r (by simpa using hr))]

/-! ## The claims about rewriteArgs -/

/-- C1 (code bug): on the argument list `Plex Transcoder`, `-loglevel`, whose final
entry is a recognized flag, `rewriteArgs` evaluates the index expression `in[2]` on
a slice of length 2 and stops with the Go runtime panic for an index out of range;
it reports no argument-shape error of its own. -/
theorem rewriteArgs_trailing_flag_panics (A : Str) :
    rewriteArgs A ["Plex Transcoder".toList, "-loglevel".toList]
      = .error (.indexOutOfRange 2 2) := by
  have h1 : "Plex Transcoder".toList ∉ recognizedFlags := by decide
  have h2 : "-loglevel".toList ∈ recognizedFlags := by decide
  rw [rewriteArgs_cons]
  simp only [scanArgs, lastFrom, rewriteValue_not_flag A _ _ h1, h2, if_true, List.length_cons,
    List.length_nil]

/-- C5 (as stated, refuted): the entry `-progressurl` stands right after `-loglevel`,
so it is overwritten with `debug` before the scan reads it, and the value after it
keeps its loopback address. -/
theorem rewriteArgs_url_value_counterexample :
    rewriteArgs "http://pms:32400".toList
        ["-loglevel".toList, "-progressurl".toList, "http://127.0.0.1:32400/x".toList]
      = .ok ["-loglevel".toList, "debug".toList, "http://127.0.0.1:32400/x".toList]
    ∧ "http://127.0.0.1:32400/x".toList ≠ "http://pms:32400".toList ++ "/x".toList := by
  decide

/-- C5 (amended): when `rewriteArgs` returns, an input entry equal to `-progressurl`,
`-manifest_name` or `-segment_list` that is the first entry, or whose preceding entry
in the result is not `-loglevel` or `-loglevel_plex`, and that is followed by the
value `http://127.0.0.1:32400` ++ x, has exactly `A ++ x` after it in the result:
the loopback address at the front is replaced and `x` is kept as it was. -/
theorem rewriteArgs_url_value (A x f : Str) (args out : List Str) (i : Nat)
    (hok : rewriteArgs A args = .ok out)
    (hf : f ∈ ["-progressurl".toList, "-manifest_name".toList, "-segment_list".toList])
    (hi : args[i]? = some f)
    (hnext : args[i + 1]? = some ("http://127.0.0.1:32400".toList ++ x))
    (hprev : i = 0 ∨ ∀ p, out[i - 1]? = some p →
      p ∉ ["-loglevel".toList, "-loglevel_plex".toList]) :
    out[i + 1]? = some (A ++ x) := by
  have hfu : f ∈ urlFlags := hf
  have hfr : f ∈ recognizedFlags := (mem_recognized f).2 (Or.inl hfu)
  have hplace := rewriteArgs_flag_in_place A f args out i hok hfr hi hprev
  obtain ⟨_, _, hstep⟩ := rewriteArgs_ok_shape A args out hok
  obtain ⟨p, hp, hout⟩ := hstep i _ hnext
  rw [hplace] at hp
  cases hp
  rw [hout]
  have : rewriteValue A f (loopback ++ x) = A ++ x := by
    simp [rewriteValue, hfu, Replace1_loopback_append]
  exact congrArg some this

theorem rewriteArgs_url_value_witness :
    (["Plex Transcoder".toList, "-progressurl".toList,
      "http://pms:32400/video?back=http://127.0.0.1:32400".toList] : List Str)[2]?
      = some (exampleAddress ++ "/video?back=http://127.0.0.1:32400".toList) :=
  rewriteArgs_url_value exampleAddress "/video?back=http://127.0.0.1:32400".toList
    "-progressurl".toList exampleUrlArgs _ 1 (by decide) (by decide) (by decide) (by decide)
    (Or.inr (by
      intro p hp
      simp only [Nat.sub_self, List.getElem?_cons_zero, Option.some.injEq] at hp
      subst hp
      decide))

/-- C6 (as stated, refuted): the entry before `-loglevel_plex` is the flag `-loglevel`,
so `-loglevel_plex` is overwritten with `debug` before the scan reads it and the
entry after it keeps its value. -/
theorem rewriteArgs_loglevel_counterexample :
    rewriteArgs "http://pms:32400".toList
        ["-loglevel".toList, "-loglevel_plex".toList, "info".toList]
      = .ok ["-loglevel".toList, "debug".toList, "info".toList]
    ∧ "info".toList ≠ "debug".toList := by
  decide

/-- C6 (amended): when `rewriteArgs` returns, for every position `i` that has a
following entry, if the input entry at `i` is `-loglevel` or `-loglevel_plex` and
it is the first entry or the entry before it in the result is not `-loglevel` or
`-loglevel_plex`, then the entry at `i+1` of the result is exactly `debug`. -/
theorem rewriteArgs_loglevel_value (A f : Str) (args out : List Str) (i : Nat)
    (hok : rewriteArgs A args = .ok out)
    (hf : f ∈ ["-loglevel".toList, "-loglevel_plex".toList])
    (hi : args[i]? = some f)
    (hnext : i + 1 < args.length)
    (hprev : i = 0 ∨ ∀ p, out[i - 1]? = some p →
      p ∉ ["-loglevel".toList, "-loglevel_plex".toList]) :
    out[i + 1]? = some "debug".toList := by
  have hfl : f ∈ logLevelFlags := hf
  have hfr : f ∈ recognizedFlags := (mem_recognized f).2 (Or.inr hfl)
  have hplace := rewriteArgs_flag_in_place A f args out i hok hfr hi hprev
  obtain ⟨_, _, hstep⟩ := rewriteArgs_ok_shape A args out hok
  obtain ⟨w, hw⟩ : ∃ w, args[i + 1]? = some w := ⟨args[i + 1], by simp [hnext]⟩
  obtain ⟨p, hp, hout⟩ := hstep i w hw
  rw [hplace] at hp
  cases hp
  rw [hout]
  have : rewriteValue A f w = "debug".toList := by
    simp [rewriteValue, logLevel_not_url f hfl, hfl]
  exact congrArg some this

theorem rewriteArgs_loglevel_value_witness :
    (["Plex Transcoder".toList, "-loglevel".toList, "debug".toList, "-i".toList,
      "in.mkv".toList] : List Str)[2]? = some "debug".toList :=
  rewriteArgs_loglevel_value exampleAddress "-loglevel".toList exampleLogArgs _ 1
    (by decide) (by decide) (by decide) (by decide)
    (Or.inr (by
      intro p hp
      simp only [Nat.sub_self, List.getElem?_cons_zero, Option.some.injEq] at hp
      subst hp
      decide))

/-- C10 (as stated, refuted): with the empty internal address (the variable
`PMS_INTERNAL_ADDRESS` unset) the value after `-progressurl` becomes the flag
`-loglevel`, so the entry after it is overwritten although the input entry
before it is not a recognized flag. -/
theorem rewriteArgs_unflagged_counterexample :
    rewriteArgs []
        ["-progressurl".toList, "-loglevelhttp://127.0.0.1:32400".toList, "x".toList]
      = .ok ["-progressurl".toList, "-loglevel".toList, "debug".toList]
    ∧ "-loglevelhttp://127.0.0.1:32400".toList ∉ recognizedFlags
    ∧ "debug".toList ≠ "x".toList := by
  decide

/-- C10 (amended): for every internal address and every argument list that
`rewriteArgs` accepts, the result has the length of the input, the first entry and
every entry whose preceding entry in the result is not a recognized flag are
unchanged, a list with no recognized flag is returned unchanged, and a second run
that returns does the same to the result of the first.  When the address does
not occur inside one of the recognized flag names, every entry whose preceding
input entry is not a recognized flag is unchanged, `rewriteArgs` accepts its own
result, and running it again leaves those entries unchanged. -/
theorem rewriteArgs_keeps_unflagged (A : Str) (args out : List Str)
    (hok : rewriteArgs A args = .ok out) :
    out.length = args.length ∧ out[0]? = args[0]? ∧
    (∀ (j : Nat) (q : Str), out[j]? = some q → q ∉ recognizedFlags →
      out[j + 1]? = args[j + 1]?) ∧
    ((∀ v ∈ args, v ∉ recognizedFlags) → out = args) ∧
    (∀ out2, rewriteArgs A out = .ok out2 →
      out2.length = out.length ∧ out2[0]? = out[0]? ∧
      ∀ (j : Nat) (q : Str), out2[j]? = some q → q ∉ recognizedFlags →
        out2[j + 1]? = out[j + 1]?) ∧
    ((∀ f ∈ recognizedFlags, ¬ A <:+: f) →
      (∀ (j : Nat) (p : Str), args[j]? = some p → p ∉ recognizedFlags →
        out[j + 1]? = args[j + 1]?) ∧
      ∃ out2, rewriteArgs A out = .ok out2 ∧ out2.length = out.length ∧
        out2[0]? = out[0]? ∧
        ∀ (j : Nat) (p : Str), args[j]? = some p → p ∉ recognizedFlags →
          out2[j + 1]? = out[j + 1]?) := by
  obtain ⟨hlen, h0, hstep⟩ := rewriteArgs_ok_shape A args out hok
  have key : ∀ (a o : List Str), rewriteArgs A a = .ok o →
      ∀ (j : Nat) (q : Str), o[j]? = some q → q ∉ recognizedFlags → o[j + 1]? = a[j + 1]? := by
    intro a o ho j q hq hqf
    obtain ⟨hl, _, hs⟩ := rewriteArgs_ok_shape A a o ho
    cases hw : a[j + 1]? with
    | none =>
      rw [List.getElem?_eq_none_iff] at hw ⊢
      omega
    | some w =>
      obtain ⟨r, hr, hout⟩ := hs j w hw
      rw [hq] at hr
      cases hr
      rw [hout, rewriteValue_not_flag A q w hqf]
  refine ⟨hlen, h0, key args out hok, ?_, ?_, ?_⟩
  · intro hno
    have hsame := rewriteArgs_no_flag A args hno
    rw [hsame] at hok
    cases hok
    rfl
  · intro out2 h2
    obtain ⟨hlen2, h02, _⟩ := rewriteArgs_ok_shape A out out2 h2
    exact ⟨hlen2, h02, key out out2 h2⟩
  · intro hA
    have hget : ∀ (j : Nat) (p : Str), args[j]? = some p → p ∉ recognizedFlags →
        ∃ q, out[j]? = some q ∧ q ∉ recognizedFlags := by
      intro j p hp hpf
      have hj : j < out.length := by
        rw [hlen]
        by_contra hcon
        rw [List.getElem?_eq_none_iff.2 (by omega)] at hp
        cases hp
      refine ⟨out[j], by simp [hj], ?_⟩
      exact rewriteArgs_keeps_not_flag A hA args out hok j p _ hp hpf (by simp [hj])
    constructor
    · intro j p hp hpf
      obtain ⟨q, hq, hqf⟩ := hget j p hp hpf
      exact key args out hok j q hq hqf
    · obtain ⟨out2, h2⟩ := rewriteArgs_again_ok A hA args out hok
      obtain ⟨hlen2, h02, _⟩ := rewriteArgs_ok_shape A out out2 h2
      refine ⟨out2, h2, hlen2, h02, ?_⟩
      intro j p hp hpf
      obtain ⟨q, hq, hqf⟩ := hget j p hp hpf
      have hj : j < out2.length := by
        rw [hlen2]
        by_contra hcon
        rw [List.getElem?_eq_none_iff.2 (by omega)] at hq
        cases hq
      have hq2 : out2[j]? = some out2[j] := by simp [hj]
      have hq2f := rewriteArgs_keeps_not_flag A hA out out2 h2 j q _ hq hqf hq2
      exact key out out2 h2 j _ hq2 hq2f

theorem rewriteArgs_keeps_unflagged_witness :
    ∃ out2, rewriteArgs exampleAddress
        ["Plex Transcoder".toList, "-loglevel".toList, "debug".toList, "-i".toList,
          "in.mkv".toList] = .ok out2 ∧
      out2[4]? = some "in.mkv".toList := by
  have h := rewriteArgs_keeps_unflagged exampleAddress exampleLogArgs
    ["Plex Transcoder".toList, "-loglevel".toList, "debug".toList, "-i".toList,
      "in.mkv".toList] (by decide)
  obtain ⟨_, out2, h2, _, _, hkeep⟩ := h.2.2.2.2.2 (by decide)
  exact ⟨out2, h2, hkeep 3 "-i".toList (by decide) (by decide)⟩

/-! ## rewriteEnv -/

theorem Index_eq_sign_none : ∀ (v : Str), '=' ∉ v →
    Index v ['='] = none ∧ v.takeWhile (· != '=') = v
  | [], _ => by
    constructor
    · unfold Index
      simp [List.isPrefixOf]
    · rfl
  | c :: cs, h => by
    have hc : c ≠ '=' := fun h1 => h (by simp [h1])
    have hcs : '=' ∉ cs := fun h1 => h (List.mem_cons_of_mem _ h1)
    obtain ⟨hi, ht⟩ := Index_eq_sign_none cs hcs
    have hne : ('=' == c) = false := by
      simpa using fun h1 : '=' = c => hc h1.symm
    have hne2 : (c != '=') = true := by simpa using hc
    constructor
    · unfold Index
      simp [List.isPrefixOf, hne, hi]
    · simp [List.takeWhile, hne2, ht]

theorem Index_eq_sign_take : ∀ (v : Str), '=' ∈ v →
    ∃ m, Index v ['='] = some m ∧ v.take m = v.takeWhile (· != '=')
  | [], h => by simp at h
  | c :: cs, h => by
    by_cases hc : c = '='
    · subst hc
      refine ⟨0, ?_, ?_⟩
      · unfold Index
        simp [List.isPrefixOf]
      · simp [List.takeWhile]
    · have hmem : '=' ∈ cs := by
        rcases List.mem_cons.1 h with h1 | h1
        · exact absurd h1.symm hc
        · exact h1
      obtain ⟨m, hm, ht⟩ := Index_eq_sign_take cs hmem
      have hne : ('=' == c) = false := by
        simpa using fun h1 : '=' = c => hc h1.symm
      have hne2 : (c != '=') = true := by simpa using hc
      refine ⟨m + 1, ?_, ?_⟩
      · unfold Index
        simp [List.isPrefixOf, hne, hm]
      · simp [List.takeWhile, hne2, ht]

/-- The name that `removeValFromEnvSlice` compares: `splitvar[0]` never panics and is
the text before the first `=` (the whole entry when it has none). -/
theorem index_SplitN2_zero (v : Str) :
    index (SplitN2 v) 0 = .ok (v.takeWhile (· != '=')) := by
  by_cases h : '=' ∈ v
  · obtain ⟨m, hm, ht⟩ := Index_eq_sign_take v h
    simp [SplitN2, hm, index, ht]
  · obtain ⟨hi, ht⟩ := Index_eq_sign_none v h
    simp [SplitN2, hi, index, ht]

theorem removeValFromEnvSliceLoop_eq (r : Str) : ∀ (rest pre : List Str),
    removeValFromEnvSliceLoop r (pre ++ rest) rest.length pre.length
      = .ok (pre ++ dropFirstNamed r rest)
  | [], pre => by simp [removeValFromEnvSliceLoop, dropFirstNamed]
  | v :: rest, pre => by
    have ih := removeValFromEnvSliceLoop_eq r rest (pre ++ [v])
    simp only [List.length_append, List.length_singleton, List.append_assoc,
      List.singleton_append] at ih
    have h0 : (pre ++ v :: rest)[pre.length]? = some v := by
      rw [List.getElem?_append_right (le_refl _)]
      simp
    simp only [List.length_cons]
    rw [removeValFromEnvSliceLoop, h0]
    simp only [index_SplitN2_zero]
    by_cases hn : v.takeWhile (· != '=') = r
    · simp [hn, dropFirstNamed]
    · simp only [hn, if_false, dropFirstNamed]
      exact ih

/-- The function `rewriteEnv` never panics and drops the first entry named `PLEX_CLAIM`. -/
theorem rewriteEnv_eq (env : List Str) :
    rewriteEnv env = .ok (dropFirstNamed "PLEX_CLAIM".toList env) := by
  have h := removeValFromEnvSliceLoop_eq "PLEX_CLAIM".toList env []
  simpa [rewriteEnv, removeValFromEnvSlice] using h

theorem dropFirstNamed_of_count_zero (r : Str) : ∀ (env : List Str),
    (env.filter fun v => v.takeWhile (· != '=') == r).length = 0 →
      env.filter (fun v => v.takeWhile (· != '=') != r) = env
  | [], _ => rfl
  | v :: vs, h => by
    by_cases hn : v.takeWhile (· != '=') = r
    · simp [List.filter, hn] at h
    · have hb : (v.takeWhile (· != '=') == r) = false := by simpa using hn
      have hb2 : (v.takeWhile (· != '=') != r) = true := by simpa using hn
      rw [List.filter_cons, hb] at h
      simp only [Bool.false_eq_true, if_false] at h
      rw [List.filter_cons, hb2]
      simp only [if_true]
      rw [dropFirstNamed_of_count_zero r vs h]

theorem dropFirstNamed_of_count_one (r : Str) : ∀ (env : List Str),
    (env.filter fun v => v.takeWhile (· != '=') == r).length = 1 →
      dropFirstNamed r env = env.filter (fun v => v.takeWhile (· != '=') != r)
  | [], h => by simp at h
  | v :: vs, h => by
    by_cases hn : v.takeWhile (· != '=') = r
    · have hb : (v.takeWhile (· != '=') == r) = true := by simpa using hn
      have hb2 : (v.takeWhile (· != '=') != r) = false := by simpa using hn
      rw [List.filter_cons, hb] at h
      simp only [if_true, List.length_cons, Nat.add_left_eq_self] at h
      rw [List.filter_cons, hb2]
      simp only [Bool.false_eq_true, if_false, dropFirstNamed, hn, if_true]
      exact (dropFirstNamed_of_count_zero r vs h).symm
    · have hb : (v.takeWhile (· != '=') == r) = false := by simpa using hn
      have hb2 : (v.takeWhile (· != '=') != r) = true := by simpa using hn
      rw [List.filter_cons, hb] at h
      simp only [Bool.false_eq_true, if_false] at h
      rw [List.filter_cons, hb2]
      simp only [if_true, dropFirstNamed, hn, if_false]
      rw [dropFirstNamed_of_count_one r vs h]

/-- C2 (as stated, refuted): on a list of `name=value` strings with two entries named
`PLEX_CLAIM` the loop of `removeValFromEnvSlice` returns at the first one, so the
result of `rewriteEnv` still holds the second. -/
theorem rewriteEnv_counterexample :
    rewriteEnv ["PLEX_CLAIM=claim-a".toList, "PLEX_CLAIM=claim-b".toList, "HOME=/config".toList]
      = .ok ["PLEX_CLAIM=claim-b".toList, "HOME=/config".toList]
    ∧ "PLEX_CLAIM=claim-b".toList.takeWhile (· != '=') = "PLEX_CLAIM".toList := by
  decide

/-- C2 (amended): for every environment list of `name=value` strings in which
exactly one entry is named `PLEX_CLAIM` (the name is the text before the first
`=`), `rewriteEnv` returns the input entries with any other name, with the same
values and in the same order, and no entry of the result is named `PLEX_CLAIM`. -/
theorem rewriteEnv_removes_claim (env : List Str)
    (hform : ∀ v ∈ env, '=' ∈ v)
    (hone : (env.filter fun v => v.takeWhile (· != '=') == "PLEX_CLAIM".toList).length = 1) :
    ∃ out, rewriteEnv env = .ok out ∧
      out = env.filter (fun v => v.takeWhile (· != '=') != "PLEX_CLAIM".toList) ∧
      (∀ v ∈ out, '=' ∈ v ∧ v.takeWhile (· != '=') ≠ "PLEX_CLAIM".toList) := by
  refine ⟨_, rewriteEnv_eq env, dropFirstNamed_of_count_one _ env hone, ?_⟩
  intro v hv
  rw [dropFirstNamed_of_count_one _ env hone, List.mem_filter] at hv
  exact ⟨hform v hv.1, by simpa using hv.2⟩

theorem rewriteEnv_removes_claim_witness :
    ∃ out, rewriteEnv exampleClaimEnv = .ok out ∧
      out = ["HOME=/config".toList, "FFMPEG_OPTS=a=b".toList] := by
  obtain ⟨out, hout, hfil, _⟩ :=
    rewriteEnv_removes_claim exampleClaimEnv (by decide) (by decide)
  exact ⟨out, hout, by rw [hfil]; decide⟩

/-! ## generatePod -/

theorem Index_eq_sign : ∀ (v : Str), '=' ∈ v →
    ∃ m, Index v ['='] = some m ∧ v.take m = v.takeWhile (· != '=') ∧
      v.drop (m + 1) = (v.dropWhile (· != '=')).drop 1
  | [], h => by simp at h
  | c :: cs, h => by
    by_cases hc : c = '='
    · subst hc
      refine ⟨0, ?_, ?_, ?_⟩
      · unfold Index
        simp [List.isPrefixOf]
      · simp [List.takeWhile]
      · simp [List.dropWhile]
    · have hmem : '=' ∈ cs := by
        rcases List.mem_cons.1 h with h1 | h1
        · exact absurd h1.symm hc
        · exact h1
      obtain ⟨m, hm, ht, hd⟩ := Index_eq_sign cs hmem
      have hne : ('=' == c) = false := by
        simpa using fun h1 : '=' = c => hc h1.symm
      have hne2 : (c != '=') = true := by simpa using hc
      refine ⟨m + 1, ?_, ?_, ?_⟩
      · unfold Index
        simp [List.isPrefixOf, hne, hm]
      · simp [List.takeWhile, hne2, ht]
      · simp [List.dropWhile, hne2, hd]

theorem SplitN2_of_mem (v : Str) (h : '=' ∈ v) :
    SplitN2 v = [v.takeWhile (· != '='), (v.dropWhile (· != '=')).drop 1] := by
  obtain ⟨m, hm, ht, hd⟩ := Index_eq_sign v h
  simp [SplitN2, hm, ht, hd]

theorem toCoreV1EnvVar_of_mem : ∀ (env : List Str), (∀ v ∈ env, '=' ∈ v) →
    toCoreV1EnvVar env = .ok (env.map fun v =>
      { Name := v.takeWhile (· != '='), Value := (v.dropWhile (· != '=')).drop 1 })
  | [], _ => rfl
  | v :: rest, h => by
    have hv := SplitN2_of_mem v (h v (List.mem_cons_self _ _))
    have ih := toCoreV1EnvVar_of_mem rest (fun x hx => h x (List.mem_cons_of_mem _ hx))
    simp [toCoreV1EnvVar, hv, index, ih]

/-- C8: for every working directory, argument list and environment list whose
entries all contain `=`, `generatePod` builds a pod with one container whose
environment is the input entries in order (name: the text before the first `=`,
literal value: everything after it, no reference), followed by exactly one more
entry, named `PLEX_CLAIM`, with an empty literal value and a reference to the
configured secret name and key. -/
theorem generatePod_env (cfg : Config) (cwd : Str) (env args : List Str)
    (h : ∀ v ∈ env, '=' ∈ v) :
    ∃ pod c, generatePod cfg cwd env args = .ok pod ∧ pod.Spec.Containers = [c] ∧
      c.Env =
        (env.map fun v =>
          EnvVar.mk (v.takeWhile (· != '=')) ((v.dropWhile (· != '=')).drop 1) none)
        ++ [EnvVar.mk "PLEX_CLAIM".toList []
              (some ⟨some ⟨cfg.plexClaimSecretName, cfg.plexClaimSecretKey⟩⟩)] := by
  simp [generatePod, toCoreV1EnvVar_of_mem env h, addFromSecretsToCoreV1EnvVar]

theorem generatePod_env_witness :
    ∃ pod c, generatePod exampleConfig "/transcode".toList exampleEnv exampleLogArgs = .ok pod ∧
      pod.Spec.Containers = [c] ∧
      c.Env =
        [EnvVar.mk "HOME".toList "/config".toList none,
         EnvVar.mk "FFMPEG_OPTS".toList "a=b".toList none,
         EnvVar.mk "PLEX_CLAIM".toList []
           (some ⟨some ⟨"plex-claim".toList, "token".toList⟩⟩)] :=
  generatePod_env exampleConfig "/transcode".toList exampleEnv exampleLogArgs (by decide)

/-- C9: every pod that `generatePod` builds has one container with exactly three
volume mounts, `data` and `config` read-only and `transcode` read-write, and
exactly three volumes, `data`, `config` and `transcode`, bound to the configured
data, config and transcode claim, so each mount name has one volume of its name;
and a pod is built whenever every environment entry contains `=`. -/
theorem generatePod_volumes (cfg : Config) (cwd : Str) (env args : List Str) :
    (∀ pod, generatePod cfg cwd env args = .ok pod →
      ∃ c, pod.Spec.Containers = [c] ∧
        c.VolumeMounts.map (fun m => (m.Name, m.ReadOnly)) =
          [("data".toList, true), ("config".toList, true), ("transcode".toList, false)] ∧
        pod.Spec.Volumes.map (fun v => (v.Name, v.VolumeSource.PersistentVolumeClaim)) =
          [("data".toList, some ⟨cfg.dataPVC⟩), ("config".toList, some ⟨cfg.configPVC⟩),
           ("transcode".toList, some ⟨cfg.transcodePVC⟩)] ∧
        ∀ m ∈ c.VolumeMounts, (pod.Spec.Volumes.filter fun v => v.Name = m.Name).length = 1) ∧
    ((∀ v ∈ env, '=' ∈ v) → ∃ pod, generatePod cfg cwd env args = .ok pod) := by
  constructor
  · intro pod hpod
    unfold generatePod at hpod
    split at hpod
    · cases hpod
    · cases hpod
      refine ⟨_, rfl, rfl, rfl, ?_⟩
      intro m hm
      simp only [List.mem_cons, List.mem_singleton, List.not_mem_nil, or_false] at hm
      rcases hm with h | h | h <;> subst h <;> rfl
  · intro h
    simp [generatePod, toCoreV1EnvVar_of_mem env h]

theorem generatePod_volumes_witness :
    ∃ pod, generatePod exampleConfig "/transcode".toList exampleEnv exampleLogArgs = .ok pod ∧
      pod.Spec.Volumes.map (fun v => (v.Name, v.VolumeSource.PersistentVolumeClaim)) =
        [("data".toList, some ⟨"plex-data".toList⟩),
         ("config".toList, some ⟨"plex-config".toList⟩),
         ("transcode".toList, some ⟨"plex-transcode".toList⟩)] := by
  have h := generatePod_volumes exampleConfig "/transcode".toList exampleEnv exampleLogArgs
  obtain ⟨pod, hpod⟩ := h.2 (by decide)
  obtain ⟨c, _, _, hv, _⟩ := h.1 pod hpod
  exact ⟨pod, hpod, hv⟩

/-! ## waitForPodCompletion -/

theorem waitLoop_step (get : Getter) (pod p : Pod) (fuel n : Nat)
    (h : get n pod.Namespace pod.Name = .ok p)
    (hF : p.Phase ≠ PodFailed) (hS : p.Phase ≠ PodSucceeded) :
    waitForPodCompletionLoop get pod (fuel + 1) n = waitForPodCompletionLoop get pod fuel (n + 1) := by
  rw [waitForPodCompletionLoop, h]
  simp [hF, hS]

theorem waitLoop_skip (get : Getter) (pod : Pod) : ∀ (k fuel n : Nat),
    (∀ j < k, ∃ p, get (n + j) pod.Namespace pod.Name = .ok p ∧
      p.Phase ≠ PodFailed ∧ p.Phase ≠ PodSucceeded) →
    waitForPodCompletionLoop get pod (k + fuel) n = waitForPodCompletionLoop get pod fuel (n + k)
  | 0, fuel, n, _ => by simp
  | k + 1, fuel, n, h => by
    obtain ⟨p, hp, hF, hS⟩ := h 0 (Nat.succ_pos k)
    have e : k + 1 + fuel = (k + fuel) + 1 := by omega
    rw [e, waitLoop_step get pod p (k + fuel) n hp hF hS,
      waitLoop_skip get pod k fuel (n + 1) (fun j hj => by
        have := h (j + 1) (by omega)
        rwa [show n + 1 + j = n + (j + 1) by omega])]
    congr 1
    omega

theorem waitLoop_count (get : Getter) (pod : Pod) : ∀ (fuel n : Nat) (r : Option GoError)
    (m : Nat), waitForPodCompletionLoop get pod fuel n = some (r, m) → n < m
  | 0, _, _, _, h => by simp [waitForPodCompletionLoop] at h
  | fuel + 1, n, r, m, h => by
    have ih := waitLoop_count get pod fuel (n + 1) r m
    rw [waitForPodCompletionLoop] at h
    split at h
    · simp only [Option.some.injEq, Prod.mk.injEq] at h
      omega
    · split_ifs at h
      all_goals first
        | (have hlt := ih h; omega)
        | (simp only [Option.some.injEq, Prod.mk.injEq] at h; omega)

/-- C4: for every sequence of fetch results, when the results before the `k`-th are
pods in a phase other than Failed and Succeeded, the loop makes exactly `k+1`
fetches and the `k`-th result decides: a fetch error is returned as it is, phase
Failed returns the error `pod %q failed` built from the name of the pod, phase
Succeeded returns nil; and a `k`-th result in phase Pending, Running or Unknown
does not end the loop: after `k+1` fetches it is still running, and whatever it
returns later it returns after at least one more fetch. -/
theorem waitForPodCompletion_first_terminal (get : Getter) (pod : Pod) (k : Nat)
    (hcont : ∀ j < k, ∃ p, get j pod.Namespace pod.Name = .ok p ∧
      p.Phase ≠ PodFailed ∧ p.Phase ≠ PodSucceeded) :
    (∀ fuel, k < fuel →
      (∀ err, get k pod.Namespace pod.Name = .error err →
        waitForPodCompletion get pod fuel = some (some err, k + 1)) ∧
      (∀ p, get k pod.Namespace pod.Name = .ok p → p.Phase = PodFailed →
        waitForPodCompletion get pod fuel
          = some (some (.errorf "pod %q failed" p.Name), k + 1)) ∧
      (∀ p, get k pod.Namespace pod.Name = .ok p → p.Phase = PodSucceeded →
        waitForPodCompletion get pod fuel = some (none, k + 1))) ∧
    (∀ p, get k pod.Namespace pod.Name = .ok p →
      p.Phase = PodPending ∨ p.Phase = PodRunning ∨ p.Phase = PodUnknown →
      waitForPodCompletion get pod (k + 1) = none ∧
      ∀ fuel r n, waitForPodCompletion get pod fuel = some (r, n) → k + 2 ≤ n) := by
  have hcont0 : ∀ j < k, ∃ p, get (0 + j) pod.Namespace pod.Name = .ok p ∧
      p.Phase ≠ PodFailed ∧ p.Phase ≠ PodSucceeded := by
    intro j hj
    simpa using hcont j hj
  constructor
  · intro fuel hfuel
    obtain ⟨m, hm⟩ : ∃ m, fuel = k + (m + 1) := ⟨fuel - k - 1, by omega⟩
    have hskip := waitLoop_skip get pod k (m + 1) 0 hcont0
    simp only [Nat.zero_add] at hskip
    refine ⟨?_, ?_, ?_⟩
    · intro err herr
      rw [waitForPodCompletion, hm, hskip, waitForPodCompletionLoop, herr]
    · intro p hp hph
      have h1 : PodFailed ≠ PodPending := by decide
      have h2 : PodFailed ≠ PodRunning := by decide
      have h3 : PodFailed ≠ PodUnknown := by decide
      rw [waitForPodCompletion, hm, hskip, waitForPodCompletionLoop, hp]
      simp [hph, h1, h2, h3]
    · intro p hp hph
      have h1 : PodSucceeded ≠ PodPending := by decide
      have h2 : PodSucceeded ≠ PodRunning := by decide
      have h3 : PodSucceeded ≠ PodUnknown := by decide
      have h4 : PodSucceeded ≠ PodFailed := by decide
      rw [waitForPodCompletion, hm, hskip, waitForPodCompletionLoop, hp]
      simp [hph, h1, h2, h3, h4]
  · intro p hp hph
    have hF : p.Phase ≠ PodFailed := by
      rcases hph with h | h | h <;> rw [h] <;> decide
    have hS : p.Phase ≠ PodSucceeded := by
      rcases hph with h | h | h <;> rw [h] <;> decide
    have hcont1 : ∀ j < k + 1, ∃ q, get (0 + j) pod.Namespace pod.Name = .ok q ∧
        q.Phase ≠ PodFailed ∧ q.Phase ≠ PodSucceeded := by
      intro j hj
      rcases Nat.lt_succ_iff_lt_or_eq.1 hj with h | h
      · exact hcont0 j h
      · subst h
        exact ⟨p, by simpa using hp, hF, hS⟩
    constructor
    · have := waitLoop_skip get pod (k + 1) 0 0 hcont1
      simpa [waitForPodCompletion, waitForPodCompletionLoop] using this
    · intro fuel r n hr
      rcases Nat.lt_or_ge (k + 1) fuel with hlt | hge
      · obtain ⟨m, hm⟩ : ∃ m, fuel = (k + 1) + m := ⟨fuel - (k + 1), by omega⟩
        rw [waitForPodCompletion, hm, waitLoop_skip get pod (k + 1) m 0 hcont1] at hr
        have := waitLoop_count get pod m (0 + (k + 1)) r n hr
        omega
      · have hsk := waitLoop_skip get pod fuel 0 0 (fun j hj => hcont1 j (by omega))
        rw [waitForPodCompletion] at hr
        simp only [Nat.add_zero] at hsk
        rw [hsk] at hr
        simp [waitForPodCompletionLoop] at hr

theorem waitForPodCompletion_first_terminal_witness :
    waitForPodCompletion exampleGet examplePod 5
      = some (some (.errorf "pod %q failed" examplePodName), 3) :=
  ((waitForPodCompletion_first_terminal exampleGet examplePod 2 (by
      intro j hj
      refine ⟨_, rfl, ?_, ?_⟩
      · interval_cases j <;> decide
      · interval_cases j <;> decide)).1 5 (by decide)).2.1 _ rfl (by decide)

/-! ## main -/

theorem mainSubmit_trace (cfg : Config) (w : World) (environ args : List Str) (pod1 : Pod)
    (tr : List Event) (h : mainSubmit cfg w environ args = .ok (pod1, tr)) :
    ∃ pod, tr = [.create cfg.namespace_ pod] := by
  unfold mainSubmit at h
  repeat' split at h
  all_goals (cases h <;> exact ⟨_, rfl⟩)

theorem mainSubmit_no_delete (cfg : Config) (w : World) (environ args : List Str) (pod1 : Pod)
    (tr : List Event) (h : mainSubmit cfg w environ args = .ok (pod1, tr)) :
    deleteCalls tr = [] := by
  obtain ⟨pod, rfl⟩ := mainSubmit_trace cfg w environ args pod1 tr h
  rfl

theorem mainCleanup_trace (cfg : Config) (w : World) (pod1 : Pod) :
    ∃ rest, (mainCleanup cfg w pod1).trace =
        .printf "Cleaning up pod..." none :: .delete cfg.namespace_ pod1.Name :: rest ∧
      deleteCalls rest = [] := by
  unfold mainCleanup
  cases w.Delete cfg.namespace_ pod1.Name with
  | none => exact ⟨[], rfl, rfl⟩
  | some e => exact ⟨[.fatalf "Error cleaning up pod: %s" e], rfl, rfl⟩

theorem main_eq (cfg : Config) (w : World) (environ args : List Str) (fuel : Nat)
    (pod1 : Pod) (tr sel : List Event)
    (hs : mainSubmit cfg w environ args = .ok (pod1, tr))
    (hsel : mainSelect w pod1 fuel = some sel) :
    main cfg w environ args fuel
      = some ⟨tr ++ sel ++ (mainCleanup cfg w pod1).trace, (mainCleanup cfg w pod1).exitStatus⟩ := by
  simp only [main, hs, hsel]

theorem mainSelect_wait (w : World) (pod1 : Pod) (fuel : Nat) (res : Option GoError) (n : Nat)
    (hstop : w.stopFirst = false)
    (hw : waitForPodCompletion w.Get pod1 fuel = some (res, n)) :
    ∃ logs, mainSelect w pod1 fuel = some (.selectWaitFn res :: logs) ∧ deleteCalls logs = [] := by
  cases res with
  | none => exact ⟨[], by simp [mainSelect, hstop, hw], rfl⟩
  | some err =>
    exact ⟨[.printf "Error waiting for pod to complete: %s" (some err)],
      by simp [mainSelect, hstop, hw], rfl⟩

/-- C3: once the pod has been created (everything up to the create call went
through and returned `pod1`), `main` finishes in each of the three ways the
`select` can resolve (the stop channel, `waitForPodCompletion` returning nil,
`waitForPodCompletion` returning an error), and its trace is the trace up to the
create call, without a delete call, then the `select` case taken, then a rest in
which the delete call for `pod1` is the one delete call. -/
theorem main_deletes_once (cfg : Config) (w : World) (environ args : List Str) (fuel : Nat)
    (pod1 : Pod) (tr : List Event)
    (hs : mainSubmit cfg w environ args = .ok (pod1, tr)) :
    (w.stopFirst = true →
      ∃ r post, main cfg w environ args fuel = some r ∧
        r.trace = tr ++ Event.selectStopCh :: post ∧ deleteCalls tr = [] ∧
        deleteCalls post = [.delete cfg.namespace_ pod1.Name]) ∧
    (w.stopFirst = false → ∀ n, waitForPodCompletion w.Get pod1 fuel = some (none, n) →
      ∃ r post, main cfg w environ args fuel = some r ∧
        r.trace = tr ++ Event.selectWaitFn none :: post ∧ deleteCalls tr = [] ∧
        deleteCalls post = [.delete cfg.namespace_ pod1.Name]) ∧
    (w.stopFirst = false → ∀ err n,
      waitForPodCompletion w.Get pod1 fuel = some (some err, n) →
      ∃ r post, main cfg w environ args fuel = some r ∧
        r.trace = tr ++ Event.selectWaitFn (some err) :: post ∧ deleteCalls tr = [] ∧
        deleteCalls post = [.delete cfg.namespace_ pod1.Name]) := by
  have hnd := mainSubmit_no_delete cfg w environ args pod1 tr hs
  obtain ⟨rest, hrest, hrd⟩ := mainCleanup_trace cfg w pod1
  have hfil : ∀ pre : List Event, deleteCalls pre = [] →
      deleteCalls (pre ++ (mainCleanup cfg w pod1).trace)
        = [.delete cfg.namespace_ pod1.Name] := by
    intro pre hpre
    rw [hrest]
    unfold deleteCalls at hpre hrd ⊢
    rw [List.filter_append, hpre]
    simp [List.filter, hrd]
  have hwait : ∀ (res : Option GoError) (n : Nat), w.stopFirst = false →
      waitForPodCompletion w.Get pod1 fuel = some (res, n) →
      ∃ r post, main cfg w environ args fuel = some r ∧
        r.trace = tr ++ Event.selectWaitFn res :: post ∧ deleteCalls tr = [] ∧
        deleteCalls post = [.delete cfg.namespace_ pod1.Name] := by
    intro res n hstop hw
    obtain ⟨logs, hsel, hlogs⟩ := mainSelect_wait w pod1 fuel res n hstop hw
    exact ⟨_, logs ++ (mainCleanup cfg w pod1).trace,
      main_eq cfg w environ args fuel pod1 tr _ hs hsel, by simp, hnd, hfil logs hlogs⟩
  refine ⟨?_, fun hstop n hw => hwait none n hstop hw,
    fun hstop err n hw => hwait (some err) n hstop hw⟩
  intro hstop
  have hsel : mainSelect w pod1 fuel
      = some [.selectStopCh, .printf "Exit requested." none] := by
    simp [mainSelect, hstop]
  exact ⟨_, [.printf "Exit requested." none] ++ (mainCleanup cfg w pod1).trace,
    main_eq cfg w environ args fuel pod1 tr _ hs hsel, by simp, hnd,
    hfil [.printf "Exit requested." none] rfl⟩

theorem main_deletes_once_witness :
    ∃ r post, main exampleConfig exampleWorld exampleEnv exampleLogArgs 5 = some r ∧
      r.trace =
        [Event.create "plex".toList
          { GenerateName := "pms-elastic-transcoder-".toList,
            Spec :=
              { NodeSelector := [("beta.kubernetes.io/arch".toList, "amd64".toList)],
                RestartPolicy := "Never".toList,
                Containers :=
                  [{ Name := "plex".toList,
                     Command := ["Plex Transcoder".toList, "-loglevel".toList,
                       "debug".toList, "-i".toList, "in.mkv".toList],
                     Image := "plexinc/pms-docker".toList,
                     Env :=
                       [EnvVar.mk "HOME".toList "/config".toList none,
                        EnvVar.mk "FFMPEG_OPTS".toList "a=b".toList none,
                        EnvVar.mk "PLEX_CLAIM".toList []
                          (some ⟨some ⟨"plex-claim".toList, "token".toList⟩⟩)],
                     WorkingDir := "/transcode".toList,
                     VolumeMounts :=
                       [⟨"data".toList, "/data".toList, true⟩,
                        ⟨"config".toList, "/config".toList, true⟩,
                        ⟨"transcode".toList, "/transcode".toList, false⟩] }],
                Volumes :=
                  [⟨"data".toList, ⟨some ⟨"plex-data".toList⟩⟩⟩,
                   ⟨"config".toList, ⟨some ⟨"plex-config".toList⟩⟩⟩,
                   ⟨"transcode".toList, ⟨some ⟨"plex-transcode".toList⟩⟩⟩] } }]
        ++ Event.selectWaitFn (some (.errorf "pod %q failed" examplePodName)) :: post ∧
      deleteCalls post = [.delete "plex".toList examplePodName] := by
  obtain ⟨r, post, hr, htr, _, hpost⟩ :=
    (main_deletes_once exampleConfig exampleWorld exampleEnv exampleLogArgs 5 _ _ rfl).2.2 rfl
      (.errorf "pod %q failed" examplePodName) 3 (by decide)
  exact ⟨r, post, hr, htr, hpost⟩

/-- C7 (as stated, refuted): the poll loop reports the pod as Failed, the error is
logged, the delete call succeeds, and `main` returns: the exit status is 0. -/
theorem main_exit_status_counterexample :
    (main exampleConfig exampleWorld exampleEnv exampleLogArgs 5).map
        (fun r => (r.trace.drop 1, r.exitStatus))
      = some
        ([.selectWaitFn (some (.errorf "pod %q failed" examplePodName)),
          .printf "Error waiting for pod to complete: %s"
            (some (.errorf "pod %q failed" examplePodName)),
          .printf "Cleaning up pod..." none,
          .delete "plex".toList examplePodName], 0) := by
  decide

/-- C7 (amended): once the pod has been created, when `waitForPodCompletion` ends,
with nil (pod Succeeded) or with an error (pod Failed, or a fetch error), `main`
finishes, and when the delete call succeeds the exit status is 0 in both cases;
the exit status is 1 when the delete call fails. -/
theorem main_exit_status (cfg : Config) (w : World) (environ args : List Str) (fuel : Nat)
    (pod1 : Pod) (tr : List Event) (res : Option GoError) (n : Nat)
    (hs : mainSubmit cfg w environ args = .ok (pod1, tr))
    (hstop : w.stopFirst = false)
    (hw : waitForPodCompletion w.Get pod1 fuel = some (res, n)) :
    ∃ r, main cfg w environ args fuel = some r ∧
      (w.Delete cfg.namespace_ pod1.Name = none → r.exitStatus = 0) ∧
      (∀ e, w.Delete cfg.namespace_ pod1.Name = some e → r.exitStatus = 1) := by
  obtain ⟨logs, hsel, _⟩ := mainSelect_wait w pod1 fuel res n hstop hw
  refine ⟨_, main_eq cfg w environ args fuel pod1 tr _ hs hsel, ?_, ?_⟩
  · intro hd
    simp [mainCleanup, hd]
  · intro e hd
    simp [mainCleanup, hd]

theorem main_exit_status_witness :
    ∃ r, main exampleConfig exampleWorld exampleEnv exampleLogArgs 5 = some r ∧
      r.exitStatus = 0 := by
  obtain ⟨r, hr, h0, _⟩ :=
    main_exit_status exampleConfig exampleWorld exampleEnv exampleLogArgs 5 _ _
      (some (.errorf "pod %q failed" examplePodName)) 3 rfl rfl (by decide)
  exact ⟨r, hr, h0 rfl⟩

end KubePlex
